import Mathlib

set_option autoImplicit false

/-!
Verification development for the rattler-server package cache.

The development shallowly embeds the two shown source files,
`src/available_packages_cache.rs` and `src/fetch.rs`, together with the
`generic_cache` module they depend on.  The generic cache's code is not among
the shown sources (only its caller is), so its operations are modelled from the
specification's description of the Generic Cache (section 4.1); those
definitions carry a `Modelled from the spec:` doc comment.  External crate
collaborators (the URL type, the variant-availability probe, the compressed
stream decoders, the JSON parser, and the gateway's `fetch_repo_data`) are
treated as opaque parameters or small faithful models, as the specification
directs.
-/

namespace RattlerServer

/-- Model of `reqwest::Url` (external `url` crate), reduced to what the code
observes: a hierarchical URL is a list of path segments (a trailing slash is an
empty final segment); `cannotBeABase` marks the degenerate URLs on which
`Url::join` fails. -/
structure Url where
  cannotBeABase : Bool
  segments : List String
  deriving DecidableEq, Repr

/-- Model of `Url::join` with a single relative segment (external `url` crate):
per RFC 3986 merge, the relative reference replaces the last path segment of
the base; joining fails exactly when the base cannot be a base. -/
def Url.join (u : Url) (segment : String) : Option Url :=
  if u.cannotBeABase then none
  else some { cannotBeABase := false, segments := u.segments.dropLast ++ [segment] }

/-- Model of `rattler_conda_types::Channel` (external crate), reduced to what
the code observes: a display name and the base URL string that
`platform_url` and `into_repo_data_records` are built from. -/
structure Channel where
  name : String
  base_url : String
  deriving DecidableEq, Repr

/-- Model of `Channel::platform_url` (external crate): the subdirectory URL
`<base_url>/<platform>/` for the platform, with a trailing slash (an empty
final segment), built only from the channel's base URL. -/
def Channel.platform_url (c : Channel) (platform : String) : Url :=
  { cannotBeABase := false, segments := [c.base_url, platform, ""] }

/-- Model of `rattler_conda_types::RepoData`: the structured document, reduced
to its list of package entries. -/
structure RepoData where
  packages : List String
  deriving DecidableEq, Repr

/-- One parsed package record; mirrors `rattler_conda_types::RepoDataRecord`,
whose `channel` field holds the base URL of the originating channel. -/
structure RepoDataRecord where
  package : String
  channel : String
  deriving DecidableEq, Repr

/-- Model of `RepoData::into_repo_data_records` (external crate): project every
package entry into a record tagged with the originating channel's base URL. -/
def RepoData.into_repo_data_records (rd : RepoData) (c : Channel) : List RepoDataRecord :=
  rd.packages.map (fun p => { package := p, channel := c.base_url })

namespace Fetch

/-- The two compressed transfer encodings of `src/fetch.rs` (`enum Encoding`). -/
inductive Encoding where
  | zst
  | bz2
  deriving DecidableEq, Repr

/-- Result of `rattler_repodata_gateway::fetch::check_variant_availability`
(external crate): availability flags for the compressed repodata variants.
The probe returns these flags directly (no error type); a failed probe has
already been folded into a `false` flag. -/
structure VariantAvailability where
  has_zst : Bool
  has_bz2 : Bool
  deriving DecidableEq, Repr

/-- Embedding of `get_repodata_url` (src/fetch.rs lines 72-95).  The
availability probe is passed in as a function.  A `none` result models the
`expect("invalid url segment")` panic on a failed `Url::join`. -/
def get_repodata_url (probe : Url → VariantAvailability) (subdir_url : Url) :
    Option (Url × Option Encoding) :=
  let variant_availability := probe subdir_url
  let has_zst := variant_availability.has_zst
  let has_bz2 := variant_availability.has_bz2
  if has_zst then
    (subdir_url.join "repodata.json.zst").map (fun url => (url, some Encoding.zst))
  else if has_bz2 then
    (subdir_url.join "repodata.json.bz2").map (fun url => (url, some Encoding.bz2))
  else
    (subdir_url.join "repodata.json").map (fun url => (url, none))

/-- Errors surfaced by the fetch pipeline. -/
inductive FetchError where
  | status (code : Nat)
  | ioError (msg : String)
  | parseError (msg : String)
  | urlPanic
  deriving DecidableEq, Repr

/-- Model of an HTTP response: a status code and a body delivered as a stream
of byte chunks, each of which may instead be an I/O error. -/
structure Response where
  status : Nat
  body : List (Except String (List Nat))

/-- Model of `reqwest::Response::error_for_status`: fails exactly on client
(4xx) and server (5xx) error statuses. -/
def error_for_status (r : Response) : Except FetchError Response :=
  if 400 ≤ r.status ∧ r.status ≤ 599 then Except.error (FetchError.status r.status)
  else Except.ok r

/-- Model of `StreamReader` + `read_to_end`: drain the chunk stream completely,
concatenating every chunk; the first I/O error aborts the read, and the partial
prefix accumulated so far is discarded by error propagation (`?`), never
returned. -/
def readToEnd : List (Except String (List Nat)) → Except FetchError (List Nat)
  | [] => Except.ok []
  | Except.error e :: _ => Except.error (FetchError.ioError e)
  | Except.ok chunk :: rest => (readToEnd rest).map (fun tail => chunk ++ tail)

/-- The body-decoding dispatch of `stream_and_decode_to_memory` (src/fetch.rs
lines 31-54): three modes — passthrough, bzip2, zstd.  The external
`async_compression` decoders are passed in as pure bytes-in/bytes-out
functions; a decoder wraps the fully drained stream, and any of its failures
surfaces as an I/O error of the read. -/
def decodeBody (bzDecode zstDecode : List Nat → Except String (List Nat))
    (encoding : Option Encoding) (body : List (Except String (List Nat))) :
    Except FetchError (List Nat) :=
  match encoding with
  | none => readToEnd body
  | some Encoding.bz2 =>
    (readToEnd body).bind fun bytes =>
      match bzDecode bytes with
      | Except.ok out => Except.ok out
      | Except.error e => Except.error (FetchError.ioError e)
  | some Encoding.zst =>
    (readToEnd body).bind fun bytes =>
      match zstDecode bytes with
      | Except.ok out => Except.ok out
      | Except.error e => Except.error (FetchError.ioError e)

/-- The byte content carried by one stream chunk (an errored chunk carries
none); used to state that a successful drain returns the bytes of every
chunk. -/
def chunkBytes : Except String (List Nat) → List Nat
  | Except.ok c => c
  | Except.error _ => []

/-- Embedding of `stream_and_decode_to_memory` (src/fetch.rs lines 22-64):
fully decode the body into a complete in-memory buffer, then hand the complete
buffer to the structural parse step (`serde_json::from_slice` followed by
`into_repo_data_records`, run on the blocking pool), which only ever sees a
successfully drained buffer. -/
def stream_and_decode_to_memory (bzDecode zstDecode : List Nat → Except String (List Nat))
    (parseJson : List Nat → Except String RepoData)
    (response : Response) (encoding : Option Encoding) (channel : Channel) :
    Except FetchError (List RepoDataRecord) :=
  (decodeBody bzDecode zstDecode encoding response.body).bind fun json_bytes =>
    match parseJson json_bytes with
    | Except.error e => Except.error (FetchError.parseError e)
    | Except.ok repodata => Except.ok (repodata.into_repo_data_records channel)

/-- Embedding of `get_repodata` (src/fetch.rs lines 10-19): negotiate the
variant URL and encoding, issue the request against the server model, fail on a
non-success status, then stream-decode and parse. -/
def get_repodata (probe : Url → VariantAvailability) (server : Url → Response)
    (bzDecode zstDecode : List Nat → Except String (List Nat))
    (parseJson : List Nat → Except String RepoData)
    (channel : Channel) (platform_url : Url) :
    Except FetchError (List RepoDataRecord) :=
  match get_repodata_url probe platform_url with
  | none => Except.error FetchError.urlPanic
  | some (repodata_url, encoding) =>
    (error_for_status (server repodata_url)).bind fun response =>
      stream_and_decode_to_memory bzDecode zstDecode parseJson response encoding channel

end Fetch

/-- Modelled from the spec: `src/generic_cache.rs` is not among the shown
sources (only its caller `available_packages_cache.rs` is).  A CacheEntry is
`{ value: shared-immutable V, inserted_at: timestamp }` (spec section 3);
timestamps are natural-number instants. -/
structure CacheEntry (V : Type) where
  value : V
  inserted_at : Nat
  deriving DecidableEq, Repr

/-- Modelled from the spec: the Generic Cache's state (spec sections 3 and
4.1).  `entries` is the key/value map; `pending` holds, per key, at most one
PendingSlot, recorded as the fetching caller's id together with the list of
callers currently suspended on that slot; `expiration` is the TTL fixed at
construction. -/
structure GenericCache (K V : Type) where
  entries : K → Option (CacheEntry V)
  pending : K → Option (Nat × List Nat)
  expiration : Nat

/-- Outcome of one `get_cached` step for one caller: a live value was found,
the caller was granted the write handle (the `NotFound(write_guard)` arm of the
source), or the caller suspended on an existing PendingSlot. -/
inductive GetCachedResult (V : Type) where
  | found (value : V)
  | notFound
  | suspended
  deriving DecidableEq, Repr

/-- Boolean recogniser for the outcome in which a caller is granted the write
handle and therefore runs the underlying fetch. -/
def GetCachedResult.grantsWriteHandle {V : Type} : GetCachedResult V → Bool
  | GetCachedResult.notFound => true
  | _ => false

/-- Modelled from the spec: `with_expiration(ttl)` constructs an empty cache
(spec section 4.1). -/
def GenericCache.with_expiration (K V : Type) (ttl : Nat) : GenericCache K V :=
  { entries := fun _ => none, pending := fun _ => none, expiration := ttl }

/-- Modelled from the spec: `get_cached(key)` (spec section 4.1).  A live
(non-expired: `now < inserted_at + ttl`, the boundary given by spec section
8.2) entry is returned immediately; otherwise, if a PendingSlot exists the
caller suspends on it, and if none exists the caller is granted the write
handle and a PendingSlot is installed before returning. -/
def GenericCache.get_cached {K V : Type} [DecidableEq K] (c : GenericCache K V)
    (caller : Nat) (k : K) (now : Nat) : GetCachedResult V × GenericCache K V :=
  match c.entries k with
  | some e =>
    if now < e.inserted_at + c.expiration then (GetCachedResult.found e.value, c)
    else
      match c.pending k with
      | some fw =>
        (GetCachedResult.suspended,
         { c with pending := fun j => if j = k then some (fw.1, fw.2 ++ [caller]) else c.pending j })
      | none =>
        (GetCachedResult.notFound,
         { c with pending := fun j => if j = k then some (caller, []) else c.pending j })
  | none =>
    match c.pending k with
    | some fw =>
      (GetCachedResult.suspended,
       { c with pending := fun j => if j = k then some (fw.1, fw.2 ++ [caller]) else c.pending j })
    | none =>
      (GetCachedResult.notFound,
       { c with pending := fun j => if j = k then some (caller, []) else c.pending j })

/-- Modelled from the spec: `set(write_handle, value)` (spec section 4.1)
stores the value as a new CacheEntry stamped with the current time (a full
replacement of the map slot), removes the PendingSlot for the key, and
releases all callers suspended on that key, handing each the newly stored
value; the second component is the list of released waiters, each of whom
receives exactly the stored value. -/
def GenericCache.set {K V : Type} [DecidableEq K] (c : GenericCache K V)
    (k : K) (v : V) (now : Nat) : GenericCache K V × List Nat :=
  ({ c with
      entries := fun j =>
        if j = k then some { value := v, inserted_at := now } else c.entries j,
      pending := fun j => if j = k then none else c.pending j },
   (c.pending k).elim [] Prod.snd)

/-- Modelled from the spec: the implicit abandon path (spec section 4.1) —
the write handle is dropped without `set`; the PendingSlot is released without
installing an entry, and the suspended callers (the second component) are
released to retry as fresh fetchers, not handed an error. -/
def GenericCache.abandon {K V : Type} [DecidableEq K] (c : GenericCache K V)
    (k : K) : GenericCache K V × List Nat :=
  ({ c with pending := fun j => if j = k then none else c.pending j },
   (c.pending k).elim [] Prod.snd)

/-- Modelled from the spec: `gc()` (spec sections 3 and 4.1) scans all entries
and removes those whose age exceeds the TTL (`now - inserted_at > ttl`); it
does not touch pending slots. -/
def GenericCache.gc {K V : Type} (c : GenericCache K V) (now : Nat) : GenericCache K V :=
  { c with
      entries := fun j =>
        match c.entries j with
        | some e => if now - e.inserted_at > c.expiration then none else some e
        | none => none }

/-- Run one `get_cached` step for each caller in the list, in order, threading
the cache state: the interleaving of N concurrent `get` calls arriving at the
same key before the fetch completes. -/
def runGets {K V : Type} [DecidableEq K] (c : GenericCache K V)
    (callers : List Nat) (k : K) (now : Nat) :
    List (GetCachedResult V) × GenericCache K V :=
  match callers with
  | [] => ([], c)
  | caller :: rest =>
    let step := c.get_cached caller k now
    let further := runGets step.2 rest k now
    (step.1 :: further.1, further.2)

/-- Model of `Vec::to_vec` on an `Arc<Vec<_>>` (the hit path of
`AvailablePackagesCache::get`, src/available_packages_cache.rs line 45): an
element-wise copy of the stored list, yielding a fresh list equal in value to
the original. -/
def to_vec (l : List RepoDataRecord) : List RepoDataRecord :=
  List.foldr List.cons [] l

/-- Embedding of `AvailablePackagesCache` (src/available_packages_cache.rs
lines 15-19): the generic cache keyed by platform URL, storing shared record
lists.  The download client and cache directory are threaded as parameters of
`get` rather than stored, since the model treats them as opaque. -/
structure AvailablePackagesCache where
  cache : GenericCache Url (List RepoDataRecord)

/-- Embedding of `AvailablePackagesCache::new` (src/available_packages_cache.rs
lines 23-29): an empty cache whose keys expire after `expiration`. -/
def AvailablePackagesCache.new (expiration : Nat) : AvailablePackagesCache :=
  { cache := GenericCache.with_expiration Url (List RepoDataRecord) expiration }

/-- Embedding of `AvailablePackagesCache::gc` (src/available_packages_cache.rs
lines 32-34): delegate to the generic cache's garbage collection. -/
def AvailablePackagesCache.gc (s : AvailablePackagesCache) (now : Nat) :
    AvailablePackagesCache :=
  { cache := s.cache.gc now }

/-- Observable outcome of one `AvailablePackagesCache::get` step for one
caller: a record list, an error, or a cooperative suspension on another
caller's in-flight fetch. -/
inductive GetOutcome where
  | ok (records : List RepoDataRecord)
  | fetchRepoDataJson (url : Url) (err : String)
  | internalError (err : String)
  | suspendedOnPending
  deriving DecidableEq, Repr

/-- Embedding of `AvailablePackagesCache::get` (src/available_packages_cache.rs
lines 38-71).  The cache key is `channel.platform_url(platform)`.  On a hit the
stored list is returned as a fresh copy (`to_vec`).  On a miss the caller holds
the write token and runs the external gateway fetch `fetch_repo_data`
(modelled as a function from the platform URL to the downloaded
`repodata.json` file bytes or an error) followed by `RepoData::from_path`
(modelled by `from_path`); an early error return drops the write token, which
is the generic cache's abandon path; on success the parsed records, tagged with
the fetching caller's channel, are stored through the token
(`Arc::new(repodata.clone())`, a value-equal copy) and returned. -/
def AvailablePackagesCache.get
    (fetch_repo_data : Url → Except String (List Nat))
    (from_path : List Nat → Except String RepoData)
    (s : AvailablePackagesCache) (caller : Nat) (channel : Channel)
    (platform : String) (now : Nat) : GetOutcome × AvailablePackagesCache :=
  let platform_url := channel.platform_url platform
  match s.cache.get_cached caller platform_url now with
  | (GetCachedResult.found repodata, c₁) =>
    (GetOutcome.ok (to_vec repodata), { cache := c₁ })
  | (GetCachedResult.suspended, c₁) =>
    (GetOutcome.suspendedOnPending, { cache := c₁ })
  | (GetCachedResult.notFound, c₁) =>
    match fetch_repo_data platform_url with
    | Except.error e =>
      (GetOutcome.fetchRepoDataJson platform_url e,
       { cache := (c₁.abandon platform_url).1 })
    | Except.ok bytes =>
      match from_path bytes with
      | Except.error e =>
        (GetOutcome.internalError e, { cache := (c₁.abandon platform_url).1 })
      | Except.ok rd =>
        let repodata := rd.into_repo_data_records channel
        (GetOutcome.ok repodata,
         { cache := (c₁.set platform_url repodata now).1 })

/-! Theorems -/

/-- C4: for every availability probe result, the negotiator selects the zstd
variant (URL suffix `.zst`) whenever zstd is available, otherwise the bzip2
variant (URL suffix `.bz2`) whenever bzip2 is available, and otherwise the
uncompressed document — zstd is preferred over bzip2 over uncompressed, in
that fixed order. -/
theorem negotiator_variant_preference (probe : Url → Fetch.VariantAvailability)
    (subdir_url : Url) (hbase : subdir_url.cannotBeABase = false) :
    ((probe subdir_url).has_zst = true →
      Fetch.get_repodata_url probe subdir_url =
        some ({ cannotBeABase := false,
                segments := subdir_url.segments.dropLast ++ ["repodata.json.zst"] },
              some Fetch.Encoding.zst)) ∧
    ((probe subdir_url).has_zst = false → (probe subdir_url).has_bz2 = true →
      Fetch.get_repodata_url probe subdir_url =
        some ({ cannotBeABase := false,
                segments := subdir_url.segments.dropLast ++ ["repodata.json.bz2"] },
              some Fetch.Encoding.bz2)) ∧
    ((probe subdir_url).has_zst = false → (probe subdir_url).has_bz2 = false →
      Fetch.get_repodata_url probe subdir_url =
        some ({ cannotBeABase := false,
                segments := subdir_url.segments.dropLast ++ ["repodata.json"] },
              none)) := by
  refine ⟨fun hz => ?_, fun hz hb => ?_, fun hz hb => ?_⟩ <;>
    simp [Fetch.get_repodata_url, Url.join, hbase, hz]
  · simp [hb]
  · simp [hb]

/-- Closed witness for `negotiator_variant_preference`: one concrete run of
the negotiator in each of the three advertised-variant situations. -/
theorem negotiator_variant_preference_witness :
    (Fetch.get_repodata_url (fun _ => { has_zst := true, has_bz2 := true })
        { cannotBeABase := false, segments := ["chan", "linux-64", ""] } =
      some ({ cannotBeABase := false,
              segments := ["chan", "linux-64", "repodata.json.zst"] },
            some Fetch.Encoding.zst)) ∧
    (Fetch.get_repodata_url (fun _ => { has_zst := false, has_bz2 := true })
        { cannotBeABase := false, segments := ["chan", "linux-64", ""] } =
      some ({ cannotBeABase := false,
              segments := ["chan", "linux-64", "repodata.json.bz2"] },
            some Fetch.Encoding.bz2)) ∧
    (Fetch.get_repodata_url (fun _ => { has_zst := false, has_bz2 := false })
        { cannotBeABase := false, segments := ["chan", "linux-64", ""] } =
      some ({ cannotBeABase := false,
              segments := ["chan", "linux-64", "repodata.json"] },
            none)) :=
  ⟨(negotiator_variant_preference (fun _ => { has_zst := true, has_bz2 := true })
      { cannotBeABase := false, segments := ["chan", "linux-64", ""] } rfl).1 rfl,
   (negotiator_variant_preference (fun _ => { has_zst := false, has_bz2 := true })
      { cannotBeABase := false, segments := ["chan", "linux-64", ""] } rfl).2.1 rfl rfl,
   (negotiator_variant_preference (fun _ => { has_zst := false, has_bz2 := false })
      { cannotBeABase := false, segments := ["chan", "linux-64", ""] } rfl).2.2 rfl rfl⟩

/-- C5: content negotiation never fails — for every probe result and every
subdirectory URL that can be a base (the valid hierarchical URLs produced by
`platform_url`), `get_repodata_url` returns a usable (URL, encoding) pair; the
`expect("invalid url segment")` panic branch, modelled as the `none` result,
is unreachable.  Probe failures cannot surface here at all: the external probe
returns availability flags and no error, so a failed probe is a `false` flag
and at worst selects the uncompressed fallback. -/
theorem negotiation_never_fails (probe : Url → Fetch.VariantAvailability)
    (subdir_url : Url) (hbase : subdir_url.cannotBeABase = false) :
    ∃ repodata_url encoding,
      Fetch.get_repodata_url probe subdir_url = some (repodata_url, encoding) := by
  unfold Fetch.get_repodata_url
  simp only [Url.join, hbase, Bool.false_eq_true, if_false]
  by_cases hz : (probe subdir_url).has_zst <;> by_cases hb : (probe subdir_url).has_bz2 <;>
    simp [hz, hb]

/-- Closed witness for `negotiation_never_fails` at a concrete probe and the
platform URL of a concrete channel. -/
theorem negotiation_never_fails_witness :
    ∃ repodata_url encoding,
      Fetch.get_repodata_url (fun _ => { has_zst := false, has_bz2 := false })
          (Channel.platform_url { name := "conda-forge", base_url := "cf" } "noarch") =
        some (repodata_url, encoding) :=
  negotiation_never_fails (fun _ => { has_zst := false, has_bz2 := false })
    (Channel.platform_url { name := "conda-forge", base_url := "cf" } "noarch") rfl

/-- Helper: a stream of error-free chunks drains completely — `readToEnd`
returns the concatenation of every chunk's bytes, never a prefix. -/
theorem readToEnd_ok_of_all_ok :
    ∀ body : List (Except String (List Nat)),
      (∀ x ∈ body, ∃ c, x = Except.ok c) →
      Fetch.readToEnd body = Except.ok (body.map Fetch.chunkBytes).flatten := by
  intro body
  induction body with
  | nil => intro _; rfl
  | cons x rest ih =>
    intro h
    match x with
    | Except.error e =>
      rcases h (Except.error e) (List.mem_cons_self _ _) with ⟨c, hc⟩
      exact absurd hc (by simp)
    | Except.ok c =>
      have hrest := ih (fun y hy => h y (List.mem_cons_of_mem _ hy))
      simp [Fetch.readToEnd, hrest, Fetch.chunkBytes, Except.map]

/-- Helper: a successful `readToEnd` implies every chunk of the stream was
error-free — an I/O error anywhere in the body is never silently skipped. -/
theorem readToEnd_all_ok_of_ok :
    ∀ (body : List (Except String (List Nat))) (jb : List Nat),
      Fetch.readToEnd body = Except.ok jb → ∀ x ∈ body, ∃ c, x = Except.ok c := by
  intro body
  induction body with
  | nil => intro jb _ x hx; exact absurd hx (by simp)
  | cons y rest ih =>
    intro jb hok x hx
    match y with
    | Except.error e => exact absurd hok (by simp [Fetch.readToEnd])
    | Except.ok c =>
      rcases List.mem_cons.mp hx with hx | hx
      · exact ⟨c, hx⟩
      · simp only [Fetch.readToEnd] at hok
        match hrest : Fetch.readToEnd rest with
        | Except.error e => rw [hrest] at hok; exact absurd hok (by simp [Except.map])
        | Except.ok tail => exact ih tail hrest x hx

/-- Helper: an I/O error during the drain propagates through every decoding
mode — passthrough, bzip2 and zstd alike surface the read failure. -/
theorem decodeBody_error_of_readToEnd_error
    (bzDecode zstDecode : List Nat → Except String (List Nat))
    (body : List (Except String (List Nat))) (e : Fetch.FetchError)
    (herr : Fetch.readToEnd body = Except.error e) :
    ∀ encoding, Fetch.decodeBody bzDecode zstDecode encoding body = Except.error e := by
  intro encoding
  match encoding with
  | none => simpa [Fetch.decodeBody] using herr
  | some Fetch.Encoding.bz2 => simp [Fetch.decodeBody, herr, Except.bind]
  | some Fetch.Encoding.zst => simp [Fetch.decodeBody, herr, Except.bind]

/-- C6: the fetch pipeline returns a transport error whenever the server
responds with a non-success status (the `error_for_status` of the request) or
the possibly-decompressing body stream hits an I/O error (in any of the three
modes: passthrough, bzip2, zstd); and the decoder fully drains the stream —
a successful read returns the concatenation of every chunk and implies no
chunk errored, so no silently truncated document ever reaches the structural
parse. -/
theorem fetch_transport_errors_and_full_drain
    (probe : Url → Fetch.VariantAvailability) (server : Url → Fetch.Response)
    (bzDecode zstDecode : List Nat → Except String (List Nat))
    (parseJson : List Nat → Except String RepoData)
    (channel : Channel) (platform_url repodata_url : Url)
    (encoding : Option Fetch.Encoding)
    (hurl : Fetch.get_repodata_url probe platform_url = some (repodata_url, encoding)) :
    ((400 ≤ (server repodata_url).status ∧ (server repodata_url).status ≤ 599) →
      Fetch.get_repodata probe server bzDecode zstDecode parseJson channel platform_url =
        Except.error (Fetch.FetchError.status (server repodata_url).status)) ∧
    (∀ body : List (Except String (List Nat)),
      (∀ x ∈ body, ∃ c, x = Except.ok c) →
      Fetch.readToEnd body = Except.ok (body.map Fetch.chunkBytes).flatten) ∧
    (∀ (body : List (Except String (List Nat))) (jb : List Nat),
      Fetch.readToEnd body = Except.ok jb → ∀ x ∈ body, ∃ c, x = Except.ok c) ∧
    (∀ (e : Fetch.FetchError),
      Fetch.readToEnd (server repodata_url).body = Except.error e →
      ¬(400 ≤ (server repodata_url).status ∧ (server repodata_url).status ≤ 599) →
      Fetch.get_repodata probe server bzDecode zstDecode parseJson channel platform_url =
        Except.error e) := by
  refine ⟨fun hstat => ?_, readToEnd_ok_of_all_ok, readToEnd_all_ok_of_ok,
          fun e herr hok => ?_⟩
  · simp [Fetch.get_repodata, hurl, Fetch.error_for_status, hstat, Except.bind]
  · simp only [Fetch.get_repodata, hurl, Fetch.error_for_status, hok, if_false]
    simp [Except.bind, Fetch.stream_and_decode_to_memory,
      decodeBody_error_of_readToEnd_error bzDecode zstDecode _ e herr encoding]

/-- Closed witness for `fetch_transport_errors_and_full_drain`: a server that
answers 404 makes the pipeline fail with that status, and a body whose second
chunk is an I/O error makes it fail with that I/O error, through the
uncompressed mode. -/
theorem fetch_transport_errors_witness :
    (Fetch.get_repodata (fun _ => { has_zst := false, has_bz2 := false })
        (fun _ => { status := 404, body := [] }) Except.ok Except.ok
        (fun _ => Except.ok { packages := [] })
        { name := "c", base_url := "cf" }
        (Channel.platform_url { name := "c", base_url := "cf" } "noarch") =
      Except.error (Fetch.FetchError.status 404)) ∧
    (Fetch.get_repodata (fun _ => { has_zst := false, has_bz2 := false })
        (fun _ => { status := 200, body := [Except.ok [1], Except.error "reset"] })
        Except.ok Except.ok (fun _ => Except.ok { packages := [] })
        { name := "c", base_url := "cf" }
        (Channel.platform_url { name := "c", base_url := "cf" } "noarch") =
      Except.error (Fetch.FetchError.ioError "reset")) :=
  ⟨(fetch_transport_errors_and_full_drain (fun _ => { has_zst := false, has_bz2 := false })
      (fun _ => { status := 404, body := [] }) Except.ok Except.ok
      (fun _ => Except.ok { packages := [] }) { name := "c", base_url := "cf" }
      (Channel.platform_url { name := "c", base_url := "cf" } "noarch")
      { cannotBeABase := false, segments := ["cf", "noarch", "repodata.json"] }
      none rfl).1 (by decide),
   (fetch_transport_errors_and_full_drain (fun _ => { has_zst := false, has_bz2 := false })
      (fun _ => { status := 200, body := [Except.ok [1], Except.error "reset"] })
      Except.ok Except.ok (fun _ => Except.ok { packages := [] })
      { name := "c", base_url := "cf" }
      (Channel.platform_url { name := "c", base_url := "cf" } "noarch")
      { cannotBeABase := false, segments := ["cf", "noarch", "repodata.json"] }
      none rfl).2.2.2 (Fetch.FetchError.ioError "reset") rfl (by decide)⟩

/-- C2: an entry inserted at time T by `set` is returned by `get_cached` for
every query at T' < T + ttl, and for every T' ≥ T + ttl the entry is not
served — the caller is granted the write handle, i.e. a new fetch is
triggered, on the lazy re-check; `gc` removes exactly the entries strictly
older than the TTL (`now - inserted_at > ttl`) and never removes a
PendingSlot. -/
theorem expiry_correctness {K V : Type} [DecidableEq K]
    (c : GenericCache K V) (k : K) (v : V) (T : Nat) :
    (∀ caller T', T' < T + c.expiration →
      (((c.set k v T).1.get_cached caller k T').1 = GetCachedResult.found v)) ∧
    (∀ caller T', T + c.expiration ≤ T' →
      (((c.set k v T).1.get_cached caller k T').1 = GetCachedResult.notFound)) ∧
    (∀ now j, ((c.gc now).entries j = none ↔
      (c.entries j = none ∨
        ∃ e, c.entries j = some e ∧ now - e.inserted_at > c.expiration))) ∧
    (∀ now, (c.gc now).pending = c.pending) := by
  refine ⟨fun caller T' h => ?_, fun caller T' h => ?_, fun now j => ?_, fun now => rfl⟩
  · simp [GenericCache.set, GenericCache.get_cached, h]
  · simp [GenericCache.set, GenericCache.get_cached, Nat.not_lt.mpr h]
  · simp only [GenericCache.gc]
    match he : c.entries j with
    | none => simp
    | some e =>
      by_cases hage : now - e.inserted_at > c.expiration
      · simp [hage, he]
      · simp [hage, he]

/-- Closed witness for `expiry_correctness`: in a cache with TTL 5, an entry
stored at time 10 is found at time 12 and re-fetched at time 15, and `gc` at
time 16 has removed it while leaving a pending slot alone. -/
theorem expiry_correctness_witness :
    ((((GenericCache.with_expiration Nat Nat 5).set 0 7 10).1.get_cached 1 0 12).1 =
      GetCachedResult.found 7) ∧
    ((((GenericCache.with_expiration Nat Nat 5).set 0 7 10).1.get_cached 1 0 15).1 =
      GetCachedResult.notFound) ∧
    ((((GenericCache.with_expiration Nat Nat 5).set 0 7 10).1.gc 16).entries 0 = none ↔
      (((GenericCache.with_expiration Nat Nat 5).set 0 7 10).1.entries 0 = none ∨
        ∃ e, ((GenericCache.with_expiration Nat Nat 5).set 0 7 10).1.entries 0 = some e ∧
          16 - e.inserted_at > ((GenericCache.with_expiration Nat Nat 5).set 0 7 10).1.expiration)) :=
  ⟨(expiry_correctness (GenericCache.with_expiration Nat Nat 5) 0 7 10).1 1 12 (by decide),
   (expiry_correctness (GenericCache.with_expiration Nat Nat 5) 0 7 10).2.1 1 15 (by decide),
   (expiry_correctness ((GenericCache.with_expiration Nat Nat 5).set 0 7 10).1 0 7 10).2.2.1 16 0⟩

/-- Helper: while a PendingSlot is held by fetcher `f` and no entry exists for
the key, every further `get_cached` caller suspends on that slot; no second
write handle is granted, the entry map is untouched, and the arriving callers
are queued behind the existing waiters in order. -/
theorem runGets_pending_all_suspended {K V : Type} [DecidableEq K]
    (k : K) (now : Nat) (f : Nat) :
    ∀ (cs : List Nat) (c : GenericCache K V) (ws : List Nat),
      c.entries k = none → c.pending k = some (f, ws) →
      (runGets c cs k now).1 = List.replicate cs.length (GetCachedResult.suspended) ∧
      (runGets c cs k now).2.entries = c.entries ∧
      (runGets c cs k now).2.pending k = some (f, ws ++ cs) := by
  intro cs
  induction cs with
  | nil => intro c ws he hp; exact ⟨rfl, rfl, by simpa using hp⟩
  | cons a cs ih =>
    intro c ws he hp
    have hstep : c.get_cached a k now =
        (GetCachedResult.suspended,
         { c with pending := fun j => if j = k then some (f, ws ++ [a]) else c.pending j }) := by
      simp [GenericCache.get_cached, he, hp]
    have hrest := ih { c with pending := fun j => if j = k then some (f, ws ++ [a]) else c.pending j }
      (ws ++ [a]) he (by simp)
    refine ⟨?_, ?_, ?_⟩
    · simp only [runGets, hstep, hrest.1, List.length_cons, List.replicate_succ]
    · simp only [runGets, hstep, hrest.2.1]
    · simp only [runGets, hstep, hrest.2.2, List.append_assoc, List.singleton_append]

/-- C1: for N concurrent `get_cached` calls on the same key with no existing
entry and no pending fetch, the first caller is granted the write handle and
every other caller suspends — the underlying fetch executes exactly once
(exactly one `notFound` grant in the whole interleaving), the PendingSlot
holds the single fetcher `f` throughout (at most one in-flight fetch per key),
and when the fetcher commits a value through `set`, all N−1 waiters are
released and handed that one stored value, which is also the newly installed
entry. -/
theorem single_flight {K V : Type} [DecidableEq K]
    (c : GenericCache K V) (k : K) (f : Nat) (ws : List Nat) (now : Nat) (v : V)
    (hentry : c.entries k = none) (hpending : c.pending k = none) :
    ((runGets c (f :: ws) k now).1 =
      GetCachedResult.notFound :: List.replicate ws.length (GetCachedResult.suspended)) ∧
    ((runGets c (f :: ws) k now).1.countP GetCachedResult.grantsWriteHandle = 1) ∧
    ((runGets c (f :: ws) k now).2.pending k = some (f, ws)) ∧
    (((runGets c (f :: ws) k now).2.set k v now).2 = ws) ∧
    (((runGets c (f :: ws) k now).2.set k v now).1.entries k =
      some { value := v, inserted_at := now }) := by
  have hstep : c.get_cached f k now =
      (GetCachedResult.notFound,
       { c with pending := fun j => if j = k then some (f, []) else c.pending j }) := by
    simp [GenericCache.get_cached, hentry, hpending]
  have hrest := runGets_pending_all_suspended k now f ws
    { c with pending := fun j => if j = k then some (f, []) else c.pending j }
    [] hentry (by simp)
  have hlist : (runGets c (f :: ws) k now).1 =
      GetCachedResult.notFound :: List.replicate ws.length (GetCachedResult.suspended) := by
    simp only [runGets, hstep, hrest.1, List.nil_append]
  have hpend : (runGets c (f :: ws) k now).2.pending k = some (f, ws) := by
    simp only [runGets, hstep]
    simpa using hrest.2.2
  refine ⟨hlist, ?_, hpend, ?_, ?_⟩
  · rw [hlist]
    simp [List.countP_cons, GetCachedResult.grantsWriteHandle]
  · simp [GenericCache.set, hpend]
  · simp [GenericCache.set]

/-- Closed witness for `single_flight`: three concurrent callers on an empty
cache — caller 1 fetches, callers 2 and 3 suspend, and the committed value 9
is fanned out to exactly the two waiters. -/
theorem single_flight_witness :
    ((runGets (GenericCache.with_expiration Nat Nat 5) [1, 2, 3] 0 0).1 =
      GetCachedResult.notFound ::
        List.replicate [2, 3].length (GetCachedResult.suspended)) ∧
    ((runGets (GenericCache.with_expiration Nat Nat 5) [1, 2, 3] 0 0).1.countP
        GetCachedResult.grantsWriteHandle = 1) ∧
    ((runGets (GenericCache.with_expiration Nat Nat 5) [1, 2, 3] 0 0).2.pending 0 =
      some (1, [2, 3])) ∧
    (((runGets (GenericCache.with_expiration Nat Nat 5) [1, 2, 3] 0 0).2.set 0 9 0).2 =
      [2, 3]) ∧
    (((runGets (GenericCache.with_expiration Nat Nat 5) [1, 2, 3] 0 0).2.set 0 9 0).1.entries 0 =
      some { value := 9, inserted_at := 0 }) :=
  single_flight (GenericCache.with_expiration Nat Nat 5) 0 1 [2, 3] 0 9 rfl rfl

/-- C7: if the holder of the write handle drops it without calling `set` (the
abandon path taken when the fetch fails and `get` returns early), the
PendingSlot is released without installing an entry — the entry map is
untouched — and the suspended waiters are released to retry (they are handed
no error); a subsequent `get_cached` for that key finds `notFound` and is
granted a fresh handle with a fresh PendingSlot. -/
theorem abandon_releases_slot {K V : Type} [DecidableEq K]
    (c : GenericCache K V) (k : K) (f : Nat) (ws : List Nat)
    (hpending : c.pending k = some (f, ws)) :
    ((c.abandon k).1.pending k = none) ∧
    ((c.abandon k).1.entries = c.entries) ∧
    ((c.abandon k).2 = ws) ∧
    (∀ caller now, c.entries k = none →
      (((c.abandon k).1.get_cached caller k now).1 = GetCachedResult.notFound ∧
       ((c.abandon k).1.get_cached caller k now).2.pending k = some (caller, []))) := by
  refine ⟨by simp [GenericCache.abandon], rfl, by simp [GenericCache.abandon, hpending],
    fun caller now hentry => ?_⟩
  constructor <;> simp [GenericCache.abandon, GenericCache.get_cached, hentry]

/-- Closed witness for `abandon_releases_slot`: a cache whose key 0 has a
pending fetch by caller 1 with waiter 2; abandoning releases the slot, returns
waiter 2 for retry, and caller 3 then obtains a fresh handle. -/
theorem abandon_releases_slot_witness :
    (((runGets (GenericCache.with_expiration Nat Nat 5) [1, 2] 0 0).2.abandon 0).1.pending 0 =
      none) ∧
    (((runGets (GenericCache.with_expiration Nat Nat 5) [1, 2] 0 0).2.abandon 0).1.entries =
      (runGets (GenericCache.with_expiration Nat Nat 5) [1, 2] 0 0).2.entries) ∧
    (((runGets (GenericCache.with_expiration Nat Nat 5) [1, 2] 0 0).2.abandon 0).2 = [2]) ∧
    ((((runGets (GenericCache.with_expiration Nat Nat 5) [1, 2] 0 0).2.abandon 0).1.get_cached
        3 0 7).1 = GetCachedResult.notFound ∧
     (((runGets (GenericCache.with_expiration Nat Nat 5) [1, 2] 0 0).2.abandon 0).1.get_cached
        3 0 7).2.pending 0 = some (3, [])) :=
  ⟨(abandon_releases_slot _ 0 1 [2] rfl).1,
   (abandon_releases_slot _ 0 1 [2] rfl).2.1,
   (abandon_releases_slot _ 0 1 [2] rfl).2.2.1,
   (abandon_releases_slot _ 0 1 [2] rfl).2.2.2 3 7 rfl⟩

/-- C8: entries are immutable once stored and `set` is a full replacement,
never a partial mutation — a `set` for a different key leaves an existing
entry (and hence any value already returned from it by a `Found` result)
untouched, a `set` for the same key installs a complete fresh entry, and the
installed entry is independent of whatever the slot previously held (the same
`set` on any other cache state installs the identical entry). -/
theorem immutability_full_replacement {K V : Type} [DecidableEq K]
    (c : GenericCache K V) (k₀ : K) (e₀ : CacheEntry V)
    (h : c.entries k₀ = some e₀) :
    (∀ k v now, k ≠ k₀ → ((c.set k v now).1.entries k₀ = some e₀)) ∧
    (∀ k v now, (c.set k v now).1.entries k =
      some { value := v, inserted_at := now }) ∧
    (∀ (c' : GenericCache K V) (k : K) (v : V) (now : Nat),
      (c.set k v now).1.entries k = (c'.set k v now).1.entries k) := by
  refine ⟨fun k v now hne => ?_, fun k v now => ?_, fun c' k v now => ?_⟩
  · have hne' : k₀ ≠ k := fun hc => hne hc.symm
    simp [GenericCache.set, h, hne']
  · simp [GenericCache.set]
  · simp [GenericCache.set]

/-- Closed witness for `immutability_full_replacement`: the entry stored under
key 0 survives a later `set` under key 1 unchanged, and a later generation of
key 0 is a complete replacement. -/
theorem immutability_full_replacement_witness :
    ((((GenericCache.with_expiration Nat Nat 5).set 0 7 10).1.set 1 8 11).1.entries 0 =
      some { value := 7, inserted_at := 10 }) ∧
    ((((GenericCache.with_expiration Nat Nat 5).set 0 7 10).1.set 0 8 11).1.entries 0 =
      some { value := 8, inserted_at := 11 }) :=
  ⟨(immutability_full_replacement ((GenericCache.with_expiration Nat Nat 5).set 0 7 10).1
      0 { value := 7, inserted_at := 10 } rfl).1 1 8 11 (by decide),
   (immutability_full_replacement ((GenericCache.with_expiration Nat Nat 5).set 0 7 10).1
      0 { value := 7, inserted_at := 10 } rfl).2.1 0 8 11⟩

/-- Helper: `to_vec` produces a list equal in value to the original — a fresh
copy, element for element. -/
theorem to_vec_eq (l : List RepoDataRecord) : to_vec l = l := by
  induction l <;> simp [to_vec, *]

/-- C9: on a cache hit, `get` returns `to_vec` of the stored list — a fresh
copy that is value-equal to the shared cache entry — and leaves the cache
unchanged; on a cache miss whose fetch and parse succeed, the record list
returned to the fetching caller is exactly the record list installed in the
cache (the source stores `Arc::new(repodata.clone())` and returns `repodata`,
and cloning preserves the value). -/
theorem get_copy_semantics
    (fetch_repo_data : Url → Except String (List Nat))
    (from_path : List Nat → Except String RepoData)
    (s : AvailablePackagesCache) (caller : Nat) (channel : Channel)
    (platform : String) (now : Nat) :
    (∀ e, s.cache.entries (channel.platform_url platform) = some e →
      now < e.inserted_at + s.cache.expiration →
      ((AvailablePackagesCache.get fetch_repo_data from_path s caller channel platform now).1 =
        GetOutcome.ok (to_vec e.value) ∧
       to_vec e.value = e.value ∧
       (AvailablePackagesCache.get fetch_repo_data from_path s caller channel platform now).2 =
        s)) ∧
    (∀ bytes rd,
      s.cache.entries (channel.platform_url platform) = none →
      s.cache.pending (channel.platform_url platform) = none →
      fetch_repo_data (channel.platform_url platform) = Except.ok bytes →
      from_path bytes = Except.ok rd →
      ((AvailablePackagesCache.get fetch_repo_data from_path s caller channel platform now).1 =
        GetOutcome.ok (rd.into_repo_data_records channel) ∧
       (AvailablePackagesCache.get fetch_repo_data from_path s caller channel platform
          now).2.cache.entries (channel.platform_url platform) =
        some { value := rd.into_repo_data_records channel, inserted_at := now })) := by
  constructor
  · intro e he hlive
    refine ⟨?_, to_vec_eq e.value, ?_⟩ <;>
      simp [AvailablePackagesCache.get, GenericCache.get_cached, he, hlive]
  · intro bytes rd he hp hf hparse
    constructor <;>
      simp [AvailablePackagesCache.get, GenericCache.get_cached, GenericCache.set,
        he, hp, hf, hparse]

/-- Closed witness for `get_copy_semantics`: a miss that downloads a one-entry
document stores and returns the same single tagged record, and a later hit
returns a value-equal copy of that stored list. -/
theorem get_copy_semantics_witness :
    ((AvailablePackagesCache.get (fun _ => Except.ok [1])
        (fun _ => Except.ok { packages := ["pkg"] })
        (AvailablePackagesCache.new 5) 1 { name := "c", base_url := "cf" } "noarch" 0).1 =
      GetOutcome.ok (RepoData.into_repo_data_records { packages := ["pkg"] }
        { name := "c", base_url := "cf" }) ∧
     (AvailablePackagesCache.get (fun _ => Except.ok [1])
        (fun _ => Except.ok { packages := ["pkg"] })
        (AvailablePackagesCache.new 5) 1 { name := "c", base_url := "cf" } "noarch"
        0).2.cache.entries
          (Channel.platform_url { name := "c", base_url := "cf" } "noarch") =
      some { value := (RepoData.into_repo_data_records ⟨["pkg"]⟩ ⟨"c", "cf"⟩),
             inserted_at := 0 }) :=
  (get_copy_semantics (fun _ => Except.ok [1])
    (fun _ => Except.ok { packages := ["pkg"] })
    (AvailablePackagesCache.new 5) 1 { name := "c", base_url := "cf" } "noarch" 0).2
    [1] { packages := ["pkg"] } rfl rfl rfl rfl

/-- C10: the cache key used by `get(channel, platform)` is exactly
`channel.platform_url(platform)` — two calls whose arguments yield the same
platform URL read the same entry (a live entry visible to one is served to
both), share one single-flight slot (a pending fetch for the shared URL
suspends both), and a successful fetch by one caller installs the entry under
the shared key with every stored record tagged with the fetching caller's
channel. -/
theorem cache_key_is_platform_url
    (fetch_repo_data : Url → Except String (List Nat))
    (from_path : List Nat → Except String RepoData)
    (s : AvailablePackagesCache) (caller₁ caller₂ : Nat)
    (c₁ c₂ : Channel) (p₁ p₂ : String) (now : Nat)
    (hkey : c₁.platform_url p₁ = c₂.platform_url p₂) :
    (∀ e, s.cache.entries (c₁.platform_url p₁) = some e →
      now < e.inserted_at + s.cache.expiration →
      ((AvailablePackagesCache.get fetch_repo_data from_path s caller₁ c₁ p₁ now).1 =
        GetOutcome.ok (to_vec e.value) ∧
       (AvailablePackagesCache.get fetch_repo_data from_path s caller₂ c₂ p₂ now).1 =
        GetOutcome.ok (to_vec e.value))) ∧
    (s.cache.entries (c₁.platform_url p₁) = none →
      ∀ fw, s.cache.pending (c₁.platform_url p₁) = some fw →
      ((AvailablePackagesCache.get fetch_repo_data from_path s caller₁ c₁ p₁ now).1 =
        GetOutcome.suspendedOnPending ∧
       (AvailablePackagesCache.get fetch_repo_data from_path s caller₂ c₂ p₂ now).1 =
        GetOutcome.suspendedOnPending)) ∧
    (∀ bytes rd,
      s.cache.entries (c₁.platform_url p₁) = none →
      s.cache.pending (c₁.platform_url p₁) = none →
      fetch_repo_data (c₂.platform_url p₂) = Except.ok bytes →
      from_path bytes = Except.ok rd →
      ((AvailablePackagesCache.get fetch_repo_data from_path s caller₂ c₂ p₂
          now).2.cache.entries (c₁.platform_url p₁) =
        some { value := rd.into_repo_data_records c₂, inserted_at := now } ∧
       ∀ r ∈ rd.into_repo_data_records c₂, r.channel = c₂.base_url)) := by
  refine ⟨fun e he hlive => ?_, fun he fw hp => ?_, fun bytes rd he hp hf hparse => ?_⟩
  · constructor <;>
      simp [AvailablePackagesCache.get, GenericCache.get_cached, ← hkey, he, hlive]
  · constructor <;>
      simp [AvailablePackagesCache.get, GenericCache.get_cached, ← hkey, he, hp]
  · rw [hkey] at he hp
    refine ⟨?_, ?_⟩
    · simp [AvailablePackagesCache.get, GenericCache.get_cached, GenericCache.set,
        hkey, he, hp, hf, hparse]
    · intro r hr
      simp only [RepoData.into_repo_data_records, List.mem_map] at hr
      rcases hr with ⟨p, _, rfl⟩
      rfl

/-- Closed witness for `cache_key_is_platform_url`: two channels that differ
in name but share a base URL yield the same platform URL; a fetch by the
second channel's caller installs the entry that the first channel's key maps
to, with records tagged by the fetching channel. -/
theorem cache_key_is_platform_url_witness :
    ((AvailablePackagesCache.get (fun _ => Except.ok [1])
        (fun _ => Except.ok { packages := ["pkg"] })
        (AvailablePackagesCache.new 5) 2 { name := "mirror", base_url := "cf" }
        "noarch" 0).2.cache.entries
          (Channel.platform_url { name := "main", base_url := "cf" } "noarch") =
      some { value := (RepoData.into_repo_data_records ⟨["pkg"]⟩ ⟨"mirror", "cf"⟩),
             inserted_at := 0 } ∧
     ∀ r ∈ RepoData.into_repo_data_records ⟨["pkg"]⟩ ⟨"mirror", "cf"⟩,
        r.channel = "cf") :=
  (cache_key_is_platform_url (fun _ => Except.ok [1])
    (fun _ => Except.ok { packages := ["pkg"] })
    (AvailablePackagesCache.new 5) 1 2 { name := "main", base_url := "cf" }
    { name := "mirror", base_url := "cf" } "noarch" "noarch" 0 rfl).2.2
    [1] { packages := ["pkg"] } rfl rfl rfl rfl

/-- C3: on a cache miss the write-handle holder obtains the record list and
stores it back through the handle, and that computation agrees with the local
fetch pipeline `get_repodata` of src/fetch.rs — given that the external
gateway fetch used by the miss path and the pipeline's negotiated download
both yield the same structured document for the same resource, the miss path
of `AvailablePackagesCache::get` and `get_repodata` produce the identical
record list, namely the document's records tagged with the channel. -/
theorem miss_path_refines_get_repodata
    (probe : Url → Fetch.VariantAvailability) (server : Url → Fetch.Response)
    (bzDecode zstDecode : List Nat → Except String (List Nat))
    (parseJson : List Nat → Except String RepoData)
    (fetch_repo_data : Url → Except String (List Nat))
    (from_path : List Nat → Except String RepoData)
    (s : AvailablePackagesCache) (caller : Nat) (channel : Channel)
    (platform : String) (now : Nat) (bytes json_bytes : List Nat) (rd : RepoData)
    (repodata_url : Url) (encoding : Option Fetch.Encoding)
    (hentry : s.cache.entries (channel.platform_url platform) = none)
    (hpending : s.cache.pending (channel.platform_url platform) = none)
    (hfetch : fetch_repo_data (channel.platform_url platform) = Except.ok bytes)
    (hparse : from_path bytes = Except.ok rd)
    (hurl : Fetch.get_repodata_url probe (channel.platform_url platform) =
      some (repodata_url, encoding))
    (hstatus : ¬(400 ≤ (server repodata_url).status ∧ (server repodata_url).status ≤ 599))
    (hdec : Fetch.decodeBody bzDecode zstDecode encoding (server repodata_url).body =
      Except.ok json_bytes)
    (hjson : parseJson json_bytes = Except.ok rd) :
    ((AvailablePackagesCache.get fetch_repo_data from_path s caller channel platform now).1 =
      GetOutcome.ok (rd.into_repo_data_records channel) ∧
     Fetch.get_repodata probe server bzDecode zstDecode parseJson channel
        (channel.platform_url platform) =
      Except.ok (rd.into_repo_data_records channel)) := by
  constructor
  · simp [AvailablePackagesCache.get, GenericCache.get_cached, hentry, hpending,
      hfetch, hparse]
  · simp [Fetch.get_repodata, hurl, Fetch.error_for_status, hstatus, Except.bind,
      Fetch.stream_and_decode_to_memory, hdec, hjson]

/-- Closed witness for `miss_path_refines_get_repodata`: a concrete one-package
resource served uncompressed; the miss path and the local pipeline both return
the single record tagged with the channel. -/
theorem miss_path_refines_get_repodata_witness :
    ((AvailablePackagesCache.get (fun _ => Except.ok [1])
        (fun _ => Except.ok { packages := ["pkg"] })
        (AvailablePackagesCache.new 5) 1 { name := "c", base_url := "cf" } "noarch" 0).1 =
      GetOutcome.ok (RepoData.into_repo_data_records { packages := ["pkg"] }
        { name := "c", base_url := "cf" }) ∧
     Fetch.get_repodata (fun _ => { has_zst := false, has_bz2 := false })
        (fun _ => { status := 200, body := [Except.ok [1]] }) Except.ok Except.ok
        (fun _ => Except.ok { packages := ["pkg"] }) { name := "c", base_url := "cf" }
        (Channel.platform_url { name := "c", base_url := "cf" } "noarch") =
      Except.ok (RepoData.into_repo_data_records { packages := ["pkg"] }
        { name := "c", base_url := "cf" })) :=
  miss_path_refines_get_repodata (fun _ => { has_zst := false, has_bz2 := false })
    (fun _ => { status := 200, body := [Except.ok [1]] }) Except.ok Except.ok
    (fun _ => Except.ok { packages := ["pkg"] }) (fun _ => Except.ok [1])
    (fun _ => Except.ok { packages := ["pkg"] }) (AvailablePackagesCache.new 5) 1
    { name := "c", base_url := "cf" } "noarch" 0 [1] [1] { packages := ["pkg"] }
    { cannotBeABase := false, segments := ["cf", "noarch", "repodata.json"] } none
    rfl rfl rfl rfl rfl (by decide) rfl rfl

end RattlerServer
